import Mathlib

/-!
Verification of the opsml-cli artifact retrieval engine.

Shallow embedding of the download/route-handling portion of the source
(`src/api/utils.rs`, `src/api/model.rs`, `src/api/download_file.rs`,
`src/api/route_helper.rs`, `src/api/types.rs`) together with proofs about
identity validation, variant selection, path mapping, the tree-download
loop, orchestration order, metadata JSON round-tripping, transport error
discipline and stream accumulation.

Modelling conventions:
- Rust `Result<T, anyhow::Error>` together with the possibility of a panic
  (`unwrap` / `expect`) is modelled by `RunResult`: `ok`, `err` (a returned
  error) and `panic` (abnormal termination) are kept distinct.
- Rust `Path` values are modelled as their component lists (`List String`);
  the Rust root component is modelled by the marker component `"/"`.
- Network endpoints are modelled by an oracle (`Server`); interpreters
  return the list of issued requests, the resulting local filesystem
  (an association list of path components to contents) and a `RunResult`.
-/

namespace OpsmlCli

/-- Outcome of running a piece of Rust code: a value, a returned error, or a
panic (abnormal termination through `unwrap` / `expect`). -/
inductive RunResult (α : Type) where
  | ok (a : α)
  | err (e : String)
  | panic (e : String)
deriving Repr, DecidableEq

/-- True exactly when the outcome is a returned error (not a panic). -/
def RunResult.isErr {α : Type} : RunResult α → Bool
  | RunResult.err _ => true
  | _ => false

/-- True exactly when the outcome is a success. -/
def RunResult.isOk {α : Type} : RunResult α → Bool
  | RunResult.ok _ => true
  | _ => false

/-- True exactly when the outcome is a panic. -/
def RunResult.isPanic {α : Type} : RunResult α → Bool
  | RunResult.panic _ => true
  | _ => false

/-- Embedding of `check_args` from `src/api/utils.rs` (lines 57-74):
`has_common` is true when name and version are both absent, `has_uid` is
true when uid is absent; the identity is accepted when the two flags
differ. -/
def check_args (name version uid : Option String) : Except String Unit :=
  let has_common : Bool := name.isNone && version.isNone
  let has_uid : Bool := uid.isNone
  if has_common != has_uid then
    Except.ok ()
  else
    Except.error ("Please provide either a uid or a name and version")

/-- Modelled from the spec: the `ModelMetadata` fields read by the
downloader in `src/api/model.rs` / `src/api/download_file.rs`
(`model_uri`, `onnx_uri`, `quantized_model_uri`, `preprocessor_uri`,
`tokenizer_uri`, `feature_extractor_uri`). The snapshot of
`src/api/types.rs` predates the quantized and companion fields, so their
declarations are taken from spec section 3 (optional strings, with
`model_uri` always present), exactly as the accessing code requires. -/
structure DownloadMetadata where
  model_uri : String
  onnx_uri : Option String
  quantized_model_uri : Option String
  preprocessor_uri : Option String
  tokenizer_uri : Option String
  feature_extractor_uri : Option String
deriving Repr, DecidableEq

/-- The `NO_ONNX_URI` panic message from `src/api/model.rs` line 14. -/
def NO_ONNX_URI : String := "No onnx model uri found but onnx flag set to true"

/-- Embedding of `ModelDownloader::get_model_uri` from `src/api/model.rs`
(lines 97-114). The Rust code calls `.expect(NO_ONNX_URI)` on the missing
variants, which panics; the panic is modelled by `RunResult.panic`. -/
def get_model_uri (quantize : Bool) (download_onnx : Bool)
    (md : DownloadMetadata) : RunResult String :=
  if download_onnx then
    if quantize then
      match md.quantized_model_uri with
      | some u => RunResult.ok u
      | none => RunResult.panic NO_ONNX_URI
    else
      match md.onnx_uri with
      | some u => RunResult.ok u
      | none => RunResult.panic NO_ONNX_URI
  else
    RunResult.ok md.model_uri

/-- Embedding of `ModelDownloader::get_preprocessor_uri` from
`src/api/model.rs` (lines 125-142): first populated companion field wins,
in the order preprocessor, tokenizer, feature extractor. -/
def get_preprocessor_uri (md : DownloadMetadata) : Option String :=
  if md.preprocessor_uri.isSome then
    md.preprocessor_uri
  else if md.tokenizer_uri.isSome then
    md.tokenizer_uri
  else if md.feature_extractor_uri.isSome then
    md.feature_extractor_uri
  else
    none

/-! ## Rust path model

Rust `Path` values are modelled as component lists. The Rust `RootDir`
component is modelled by the marker `"/"` (a real component never contains
a slash, since components come from splitting on it). `CurDir` components
are normalised away, as Rust does for non-leading `"."` components. -/

/-- Marker for the Rust `RootDir` path component. -/
def rootDir : String := "/"

/-- Splitting a character list on slashes (the accumulator holds the
current piece reversed). -/
def splitSlashAux (cur : List Char) : List Char → List (List Char)
  | [] => [cur.reverse]
  | c :: rest =>
    if c = '/' then cur.reverse :: splitSlashAux [] rest
    else splitSlashAux (c :: cur) rest

/-- Components of a path string, following Rust `Path::components`: split on
slashes, drop empty and `"."` pieces, keep a leading root marker for an
absolute path. -/
def pathComponents (s : String) : List String :=
  (match s.data with
   | c :: _ => if c = '/' then [rootDir] else []
   | [] => []) ++
  ((splitSlashAux [] s.data).map String.mk).filter (fun c => c != "" && c != ".")

/-- Rust `Path::file_name`: the last component, unless the path is empty or
ends in the root or a parent-directory component. -/
def fileName (p : List String) : Option String :=
  match p.getLast? with
  | none => none
  | some c => if c = rootDir || c = ".." then none else some c

/-- Helper for the Rust extension rule, on the reversed character list of a
file name: returns the reversed extension and the reversed stem at the last
dot, or `none` when the name has no dot. -/
def extSplit : List Char → Option (List Char × List Char)
  | [] => none
  | c :: rest =>
    if c = '.' then some ([], rest)
    else
      match extSplit rest with
      | some (e, st) => some (c :: e, st)
      | none => none

/-- Rust extension rule on one file name: the portion after the last dot,
unless the portion before it is empty (so a leading-dot name such as
`.hidden` has no extension; a trailing-dot name has the empty extension). -/
def nameExtension (n : String) : Option String :=
  match extSplit n.toList.reverse with
  | some (revExt, revStem) =>
    if revStem.isEmpty then none else some (String.mk revExt.reverse)
  | none => none

/-- Rust `Path::extension`: the extension of the file name, if any. -/
def pathExtension (p : List String) : Option String :=
  match fileName p with
  | some n => nameExtension n
  | none => none

/-- Rust `Path::strip_prefix` on component lists: drop `root` from the front
of `file` when it is a component-wise prefix, otherwise fail. -/
def stripRoot (root file : List String) : Option (List String) :=
  if root.isPrefixOf file then some (file.drop root.length) else none

/-- Rust `Path::join`: an absolute right operand replaces the base. -/
def joinPath (base rel : List String) : List String :=
  if rel.head? = some rootDir then rel else base ++ rel

/-- Rust `Path::parent`: `none` exactly for the empty path and the bare
root; otherwise the path without its last component. -/
def parentPath (p : List String) : Option (List String) :=
  if p = [] || p = [rootDir] then none else some p.dropLast

/-- Embedding of `create_dir_path` (`src/api/download_file.rs` lines 38-46):
take the parent of the path, failing when there is none, and create it with
all missing ancestors (directory creation itself is modelled as always
succeeding). -/
def create_dir_path (path : List String) : Except String Unit :=
  match parentPath path with
  | some _ => Except.ok ()
  | none => Except.error ("Failed to get parent directory")

/-- The context message attached to both path-mapping failures inside
`download_files` (`src/api/model.rs` lines 182 and 188). -/
def filePathError : String := "Failed to create file path"

/-- The local destination computed for one listed file inside
`download_files` (`src/api/model.rs` lines 178-190): when the remote root
has no extension, strip the root prefix from the file path and join the
remainder onto the write directory; when it has an extension, join only the
file name onto the write directory; the context message `filePathError` is
attached to either failure. -/
def localDest (write_dir : String) (rpath : List String) (file : String) :
    Except String (List String) :=
  if (pathExtension rpath).isNone then
    match stripRoot rpath (pathComponents file) with
    | some rel => Except.ok (joinPath (pathComponents write_dir) rel)
    | none => Except.error filePathError
  else
    match fileName (pathComponents file) with
    | some n => Except.ok (joinPath (pathComponents write_dir) [n])
    | none => Except.error filePathError

/-! ## Server oracle, requests and filesystem -/

/-- Outcome of `list_files` at the server (`src/api/route_helper.rs` lines
67-77): the GET can fail at the transport layer, the JSON decoding of the
body can fail, or a flat file list is produced. -/
inductive ListOutcome where
  | netFail (e : String)
  | parseFail (e : String)
  | files (fs : List String)
deriving Repr, DecidableEq

/-- Outcome of one file-download GET: transport failure, or a response with
a status code and a body. -/
inductive FetchOutcome where
  | netFail (e : String)
  | resp (status : Nat) (body : String)
deriving Repr, DecidableEq

/-- A request issued against the registry. -/
inductive Request where
  | postMetadata
  | listReq (rpath : List String)
  | fileReq (rfile : String)
deriving Repr, DecidableEq

/-- Content of a local file: the metadata side-file document, or downloaded
body bytes. -/
inductive FileData where
  | metaFile (md : DownloadMetadata)
  | content (s : String)
deriving Repr, DecidableEq

/-- The local filesystem: files written so far, in write order. -/
abbrev FS := List (List String × FileData)

/-- The registry as an oracle: the listing endpoint per remote root, the
download endpoint per remote file, and the combined outcome of the metadata
POST, stream accumulation and JSON parse. -/
structure Server where
  listEndpoint : List String → ListOutcome
  fetch : String → FetchOutcome
  metadata : RunResult DownloadMetadata

/-- Reqwest `StatusCode::is_success`: a 2xx status. -/
def http2xx (status : Nat) : Bool := 200 ≤ status && status ≤ 299

/-- Embedding of `RouteHelper::download_file` (`src/api/route_helper.rs`
lines 117-134): take the file name of the local path (an `unwrap`, hence a
panic when absent), GET the remote file (transport failure is a returned
error), stream a 2xx body to the local file, and on a non-2xx status return
an error carrying the response text. Returns the requests issued, the new
filesystem and the outcome. -/
def download_file (server : Server) (fs : FS) (lpath : List String)
    (rfile : String) : List Request × FS × RunResult Unit :=
  match fileName lpath with
  | none => ([], fs, RunResult.panic ("called Option::unwrap on a None value"))
  | some _ =>
    match server.fetch rfile with
    | FetchOutcome.netFail e =>
      ([Request.fileReq rfile], fs, RunResult.err ("Failed to make get request: " ++ e))
    | FetchOutcome.resp status body =>
      if http2xx status then
        ([Request.fileReq rfile], fs ++ [(lpath, FileData.content body)], RunResult.ok ())
      else
        ([Request.fileReq rfile], fs, RunResult.err ("Failed to download model: " ++ body))

/-- The per-file loop of `download_files` (`src/api/model.rs` lines
174-194): for each listed file in order, compute the local destination,
create its parent directories and download it; the first failure ends the
loop with that failure, later files untouched. -/
def downloadLoop (server : Server) (write_dir : String) (rpath : List String) :
    List String → FS → List Request × FS × RunResult Unit
  | [], fs => ([], fs, RunResult.ok ())
  | file :: rest, fs =>
    match localDest write_dir rpath file with
    | Except.error e => ([], fs, RunResult.err e)
    | Except.ok lpath =>
      match create_dir_path lpath with
      | Except.error e => ([], fs, RunResult.err e)
      | Except.ok _ =>
        match download_file server fs lpath file with
        | (reqs, fs2, RunResult.ok _) =>
          let next := downloadLoop server write_dir rpath rest fs2
          (reqs ++ next.1, next.2.1, next.2.2)
        | (reqs, fs2, RunResult.err e) => (reqs, fs2, RunResult.err e)
        | (reqs, fs2, RunResult.panic e) => (reqs, fs2, RunResult.panic e)

/-- Embedding of `ModelDownloader::download_files` (`src/api/model.rs`
lines 168-197): list the remote root, then run the per-file loop over the
listing. A transport or decode failure of the listing is a returned
error. -/
def download_files (server : Server) (write_dir : String) (rpath : List String)
    (fs : FS) : List Request × FS × RunResult Unit :=
  match server.listEndpoint rpath with
  | ListOutcome.netFail e =>
    ([Request.listReq rpath], fs, RunResult.err ("Failed to make get request: " ++ e))
  | ListOutcome.parseFail e =>
    ([Request.listReq rpath], fs, RunResult.err e)
  | ListOutcome.files files =>
    let next := downloadLoop server write_dir rpath files fs
    (Request.listReq rpath :: next.1, next.2.1, next.2.2)

/-- The `ModelDownloader` argument struct (`src/api/model.rs` lines
16-25). -/
structure ModelDownloader where
  name : Option String
  version : Option String
  uid : Option String
  write_dir : String
  ignore_release_candidates : Bool
  onnx : Bool
  no_onnx : Bool
  quantize : Bool
deriving Repr, DecidableEq

/-- The metadata side-file name (`src/api/model.rs` line 13). -/
def MODEL_METADATA_FILE : String := "metadata.json"

/-- Embedding of `ModelDownloader::get_metadata` together with
`get_model_metadata` (`src/api/model.rs` lines 59-85 and 150-158):
`check_args` is run first and its failure is a panic (the source calls
`.unwrap()` on it); then the metadata POST is issued, its streamed body
parsed, and the document written as the `metadata.json` side-file under the
write directory. -/
def get_metadata (dl : ModelDownloader) (server : Server) (fs : FS) :
    List Request × FS × RunResult DownloadMetadata :=
  match check_args dl.name dl.version dl.uid with
  | Except.error e => ([], fs, RunResult.panic e)
  | Except.ok _ =>
    match server.metadata with
    | RunResult.err e => ([Request.postMetadata], fs, RunResult.err e)
    | RunResult.panic e => ([Request.postMetadata], fs, RunResult.panic e)
    | RunResult.ok md =>
      let save_path := pathComponents dl.write_dir ++ [(MODEL_METADATA_FILE)]
      match create_dir_path save_path with
      | Except.error e => ([Request.postMetadata], fs, RunResult.err e)
      | Except.ok _ =>
        ([Request.postMetadata], fs ++ [(save_path, FileData.metaFile md)], RunResult.ok md)

/-- Embedding of `ModelDownloader::download_model` (`src/api/model.rs`
lines 202-220): compute `download_onnx` as the negation of `no_onnx`,
resolve metadata, download the companion artifact tree when a companion
root is present, then select the primary root and download its tree. Every
failure aborts the remaining steps. -/
def download_model (dl : ModelDownloader) (server : Server) :
    List Request × FS × RunResult Unit :=
  let download_onnx := !dl.no_onnx
  match get_metadata dl server [] with
  | (reqs, fs, RunResult.err e) => (reqs, fs, RunResult.err e)
  | (reqs, fs, RunResult.panic e) => (reqs, fs, RunResult.panic e)
  | (reqs, fs, RunResult.ok md) =>
    let primary := fun (reqs2 : List Request) (fs2 : FS) =>
      match get_model_uri dl.quantize download_onnx md with
      | RunResult.err e => (reqs2, fs2, RunResult.err e)
      | RunResult.panic e => (reqs2, fs2, RunResult.panic e)
      | RunResult.ok uri =>
        let next := download_files server dl.write_dir (pathComponents uri) fs2
        (reqs2 ++ next.1, next.2.1, next.2.2)
    match get_preprocessor_uri md with
    | some p =>
      match download_files server dl.write_dir (pathComponents p) fs with
      | (reqsP, fsP, RunResult.ok _) => primary (reqs ++ reqsP) fsP
      | (reqsP, fsP, RunResult.err e) => (reqs ++ reqsP, fsP, RunResult.err e)
      | (reqsP, fsP, RunResult.panic e) => (reqs ++ reqsP, fsP, RunResult.panic e)
    | none => primary reqs fs

/-! ## Transport layer -/

/-- A buffered HTTP response: status code and body text. -/
structure Response where
  status : Nat
  body : String
deriving Repr, DecidableEq

/-- Embedding of `make_get_request` (`src/api/utils.rs` lines 120-131, also
`RouteHelper::make_get_request` in `src/api/route_helper.rs` lines 45-56):
`create_client` is unwrapped (a panic when the URL does not parse, modelled
by `urlOk`), then the send either yields the response as-is, whatever its
status, or a transport failure becomes a returned error. -/
def make_get_request (urlOk : Bool) (out : FetchOutcome) : RunResult Response :=
  if urlOk then
    match out with
    | FetchOutcome.netFail e => RunResult.err ("Failed to make get request: " ++ e)
    | FetchOutcome.resp status body => RunResult.ok (Response.mk status body)
  else
    RunResult.panic ("Failed to parse url")

/-- Embedding of `make_post_request` (`src/api/utils.rs` lines 104-118, also
`RouteHelper::make_post_request` in `src/api/route_helper.rs` lines 23-37):
identical to the GET path except for the error prefix; the serialized
payload does not influence the outcome handling. -/
def make_post_request (urlOk : Bool) (out : FetchOutcome) : RunResult Response :=
  if urlOk then
    match out with
    | FetchOutcome.netFail e => RunResult.err ("Failed to make post request: " ++ e)
    | FetchOutcome.resp status body => RunResult.ok (Response.mk status body)
  else
    RunResult.panic ("Failed to parse url")

/-! ## Stream accumulation -/

/-- One item of a response byte stream: a read failure, or a chunk of
bytes. -/
inductive ChunkResult where
  | chunkErr (e : String)
  | chunk (bytes : List Nat)
deriving Repr, DecidableEq

/-- A UTF-8 continuation byte, `0x80` to `0xBF`. -/
def utf8Cont (b : Nat) : Bool := 128 ≤ b && b ≤ 191

/-- The UTF-8 well-formedness check performed by Rust
`std::str::from_utf8`, as a decidable predicate over a byte list (the
standard table: ASCII, 2-byte `C2..DF`, 3-byte `E0/E1-EC/ED/EE-EF` with
their restricted second bytes, 4-byte `F0/F1-F3/F4` likewise). -/
def isValidUtf8 : List Nat → Bool
  | [] => true
  | b :: rest =>
    if b ≤ 127 then isValidUtf8 rest
    else if 194 ≤ b && b ≤ 223 then
      match rest with
      | c1 :: r => utf8Cont c1 && isValidUtf8 r
      | [] => false
    else if b = 224 then
      match rest with
      | c1 :: c2 :: r => (160 ≤ c1 && c1 ≤ 191) && utf8Cont c2 && isValidUtf8 r
      | _ => false
    else if 225 ≤ b && b ≤ 236 then
      match rest with
      | c1 :: c2 :: r => utf8Cont c1 && utf8Cont c2 && isValidUtf8 r
      | _ => false
    else if b = 237 then
      match rest with
      | c1 :: c2 :: r => (128 ≤ c1 && c1 ≤ 159) && utf8Cont c2 && isValidUtf8 r
      | _ => false
    else if 238 ≤ b && b ≤ 239 then
      match rest with
      | c1 :: c2 :: r => utf8Cont c1 && utf8Cont c2 && isValidUtf8 r
      | _ => false
    else if b = 240 then
      match rest with
      | c1 :: c2 :: c3 :: r => (144 ≤ c1 && c1 ≤ 191) && utf8Cont c2 && utf8Cont c3 && isValidUtf8 r
      | _ => false
    else if 241 ≤ b && b ≤ 243 then
      match rest with
      | c1 :: c2 :: c3 :: r => utf8Cont c1 && utf8Cont c2 && utf8Cont c3 && isValidUtf8 r
      | _ => false
    else if b = 244 then
      match rest with
      | c1 :: c2 :: c3 :: r => (128 ≤ c1 && c1 ≤ 143) && utf8Cont c2 && utf8Cont c3 && isValidUtf8 r
      | _ => false
    else false

/-- The accumulation loop of `RouteHelper::load_stream_response`
(`src/api/route_helper.rs` lines 145-155, identically
`src/api/download_file.rs` lines 57-67): a stream read failure is a
returned error with the `with_context` message; each chunk goes through
`std::str::from_utf8(..).unwrap()`, so a chunk that is not valid UTF-8 on
its own is a panic; valid chunks are appended to the buffer (kept as its
byte content). -/
def loadStreamLoop (buffer : List Nat) : List ChunkResult → RunResult (List Nat)
  | [] => RunResult.ok buffer
  | ChunkResult.chunkErr e :: _ =>
    RunResult.err ("failed to read stream response: " ++ e)
  | ChunkResult.chunk bs :: rest =>
    if isValidUtf8 bs then loadStreamLoop (buffer ++ bs) rest
    else RunResult.panic ("invalid utf-8 sequence")

/-- Embedding of `RouteHelper::load_stream_response`: run the accumulation
loop with an empty buffer over the stream items. -/
def load_stream_response (items : List ChunkResult) : RunResult (List Nat) :=
  loadStreamLoop [] items

/-! ## Metadata JSON document

The serde data model for `types::ModelMetadata` (`src/api/types.rs` lines
94-118), at the JSON-value level: `serde_json::to_string` produces the JSON
document of `encodeModelMetadata`, and parsing the side-file back applies
`decodeModelMetadata`. JSON numbers are modelled as integers; serde_json
numbers (including floats, which cannot be NaN inside a `Value`)
round-trip exactly through printing and parsing, so nothing in the
round-trip argument depends on the scalar representation. `HashMap` fields
are modelled as association lists of their entries. -/

/-- A JSON value, as produced and consumed by serde_json. -/
inductive Json where
  | null
  | bool (b : Bool)
  | num (n : Int)
  | str (s : String)
  | arr (xs : List Json)
  | obj (fields : List (String × Json))

/-- The `ModelDataSchema` struct (`src/api/types.rs` lines 94-99). -/
structure ModelDataSchema where
  data_type : String
  input_features : List (String × Json)
  output_features : List (String × Json)

/-- The `DataSchema` struct (`src/api/types.rs` lines 101-105). -/
structure DataSchema where
  model_data_schema : ModelDataSchema
  input_data_schema : Option (List (String × Json))

/-- The `ModelMetadata` struct (`src/api/types.rs` lines 107-118). -/
structure ModelMetadata where
  model_name : String
  model_type : String
  onnx_uri : Option String
  onnx_version : Option String
  model_uri : String
  model_version : String
  model_team : String
  sample_data : List (String × Json)
  data_schema : DataSchema

/-- serde serialization of `Option<String>`: `null` or the string. -/
def encodeOptStr : Option String → Json
  | none => Json.null
  | some s => Json.str s

/-- serde serialization of `Option<HashMap<String, Value>>`. -/
def encodeOptMap : Option (List (String × Json)) → Json
  | none => Json.null
  | some m => Json.obj m

/-- serde serialization of `ModelDataSchema`: its fields in declaration
order. -/
def encodeModelDataSchema (s : ModelDataSchema) : Json :=
  Json.obj [("data_type", Json.str s.data_type),
            ("input_features", Json.obj s.input_features),
            ("output_features", Json.obj s.output_features)]

/-- serde serialization of `DataSchema`: its fields in declaration
order. -/
def encodeDataSchema (d : DataSchema) : Json :=
  Json.obj [("model_data_schema", encodeModelDataSchema d.model_data_schema),
            ("input_data_schema", encodeOptMap d.input_data_schema)]

/-- The document `save_metadata_to_json` (`src/api/model.rs` lines 38-48)
writes to `metadata.json`: `serde_json::to_string(metadata)`, at the
JSON-value level, with the struct fields in declaration order. -/
def encodeModelMetadata (m : ModelMetadata) : Json :=
  Json.obj [("model_name", Json.str m.model_name),
            ("model_type", Json.str m.model_type),
            ("onnx_uri", encodeOptStr m.onnx_uri),
            ("onnx_version", encodeOptStr m.onnx_version),
            ("model_uri", Json.str m.model_uri),
            ("model_version", Json.str m.model_version),
            ("model_team", Json.str m.model_team),
            ("sample_data", Json.obj m.sample_data),
            ("data_schema", encodeDataSchema m.data_schema)]

/-- serde deserialization of a `String` field. -/
def decodeStr : Json → Option String
  | Json.str s => some s
  | _ => none

/-- serde deserialization of an `Option<String>` field value: `null` maps
to `None`. -/
def decodeOptStrVal : Json → Option (Option String)
  | Json.null => some none
  | Json.str s => some (some s)
  | _ => none

/-- serde deserialization of an `Option<String>` field: a missing field
also maps to `None`. -/
def decodeOptStrField (fields : List (String × Json)) (key : String) :
    Option (Option String) :=
  match fields.lookup key with
  | none => some none
  | some j => decodeOptStrVal j

/-- serde deserialization of a `HashMap<String, Value>` field value. -/
def decodeMap : Json → Option (List (String × Json))
  | Json.obj fs => some fs
  | _ => none

/-- serde deserialization of an `Option<HashMap<String, Value>>` field
value. -/
def decodeOptMapVal : Json → Option (Option (List (String × Json)))
  | Json.null => some none
  | Json.obj fs => some (some fs)
  | _ => none

/-- serde deserialization of `ModelDataSchema`. -/
def decodeModelDataSchema (j : Json) : Option ModelDataSchema :=
  match j with
  | Json.obj fs => do
    let dt ← (fs.lookup "data_type").bind decodeStr
    let inf ← (fs.lookup "input_features").bind decodeMap
    let outf ← (fs.lookup "output_features").bind decodeMap
    some (ModelDataSchema.mk dt inf outf)
  | _ => none

/-- serde deserialization of `DataSchema`. -/
def decodeDataSchema (j : Json) : Option DataSchema :=
  match j with
  | Json.obj fs => do
    let mds ← (fs.lookup "model_data_schema").bind decodeModelDataSchema
    let ids ← match fs.lookup "input_data_schema" with
      | none => some none
      | some v => decodeOptMapVal v
    some (DataSchema.mk mds ids)
  | _ => none

/-- Parsing the `metadata.json` document back into a `ModelMetadata`, per
the derived serde `Deserialize` of `src/api/types.rs` lines 107-118. -/
def decodeModelMetadata (j : Json) : Option ModelMetadata :=
  match j with
  | Json.obj fs => do
    let name ← (fs.lookup "model_name").bind decodeStr
    let mtype ← (fs.lookup "model_type").bind decodeStr
    let onnxUri ← decodeOptStrField fs "onnx_uri"
    let onnxVersion ← decodeOptStrField fs "onnx_version"
    let modelUri ← (fs.lookup "model_uri").bind decodeStr
    let modelVersion ← (fs.lookup "model_version").bind decodeStr
    let modelTeam ← (fs.lookup "model_team").bind decodeStr
    let sample ← (fs.lookup "sample_data").bind decodeMap
    let schema ← (fs.lookup "data_schema").bind decodeDataSchema
    some (ModelMetadata.mk name mtype onnxUri onnxVersion modelUri modelVersion
      modelTeam sample schema)
  | _ => none

/-! ## Derived notions used by the statements -/

/-- Whether a request is a listing request: each tree download issues
exactly one. -/
def isListReq : Request → Bool
  | Request.listReq _ => true
  | _ => false

/-- The number of tree downloads a request trace witnesses: its listing
requests. -/
def treeDownloads (reqs : List Request) : Nat :=
  (reqs.filter isListReq).length

/-- All the conditions under which the per-file step of the download loop
succeeds for file `f`: its local destination is `destF f`, the parent
directories can be created, the destination has a file name, and the server
answers the fetch with a 2xx response whose body is `bodyF f`. -/
def fileStepOk (server : Server) (write_dir : String) (rpath : List String)
    (destF : String → List String) (bodyF : String → String) (f : String) : Prop :=
  localDest write_dir rpath f = Except.ok (destF f) ∧
  create_dir_path (destF f) = Except.ok () ∧
  (fileName (destF f)).isSome = true ∧
  ∃ st, server.fetch f = FetchOutcome.resp st (bodyF f) ∧ http2xx st = true

/-- The filesystem after a successful metadata resolution: the
`metadata.json` side-file under the write directory. -/
def metaSideFS (dl : ModelDownloader) (md : DownloadMetadata) : FS :=
  [(pathComponents dl.write_dir ++ [(MODEL_METADATA_FILE)], FileData.metaFile md)]

/-- The bytes of all chunks of a stream, in order. -/
def streamBytes : List ChunkResult → List Nat
  | [] => []
  | ChunkResult.chunk bs :: rest => bs ++ streamBytes rest
  | ChunkResult.chunkErr _ :: rest => streamBytes rest

/-! ## Concrete data for the witnesses -/

/-- A concrete metadata value: a primary artifact only. -/
def demoMetadata : DownloadMetadata :=
  DownloadMetadata.mk "artifacts/model.pkl" none none none none none

/-- A concrete downloader: name and version given, export disabled. -/
def demoDownloader : ModelDownloader :=
  ModelDownloader.mk (some "iris") (some "1.0.0") none "dest" false false true false

/-- A concrete server used by the witnesses: lists the primary root and a
three-file tree root, serves the first tree file and fails the second with
a 500 whose body is an error text. -/
def demoServer : Server where
  listEndpoint := fun rp =>
    if rp = ["artifacts", "model.pkl"] then
      ListOutcome.files ["artifacts/model.pkl"]
    else if rp = ["tree"] then
      ListOutcome.files ["tree/a.bin", "tree/sub/b.bin", "tree/c.bin"]
    else
      ListOutcome.parseFail "unexpected path"
  fetch := fun f =>
    if f = "artifacts/model.pkl" then FetchOutcome.resp 200 "model-bytes"
    else if f = "tree/a.bin" then FetchOutcome.resp 201 "a-bytes"
    else if f = "tree/sub/b.bin" then FetchOutcome.resp 500 "disk on fire"
    else FetchOutcome.resp 404 "not found"
  metadata := RunResult.ok demoMetadata

/-! ## Helper lemmas -/

/-- Unfolding of `localDest` in the directory-root case with a successful
prefix strip. -/
theorem localDest_dir {write_dir : String} {rpath : List String} {f : String}
    {rel : List String} (hext : pathExtension rpath = none)
    (hstrip : stripRoot rpath (pathComponents f) = some rel) :
    localDest write_dir rpath f =
      Except.ok (joinPath (pathComponents write_dir) rel) := by
  simp [localDest, hext, hstrip]

/-- Unfolding of `localDest` in the directory-root case when the root is
not a prefix of the listed file. -/
theorem localDest_dir_err {write_dir : String} {rpath : List String} {f : String}
    (hext : pathExtension rpath = none)
    (hstrip : stripRoot rpath (pathComponents f) = none) :
    localDest write_dir rpath f = Except.error filePathError := by
  simp [localDest, hext, hstrip]

/-- Unfolding of `localDest` in the single-file-root case. -/
theorem localDest_file {write_dir : String} {rpath : List String} {f : String}
    {e n : String} (hext : pathExtension rpath = some e)
    (hname : fileName (pathComponents f) = some n) :
    localDest write_dir rpath f =
      Except.ok (joinPath (pathComponents write_dir) [n]) := by
  simp [localDest, hext, hname]

/-- The metadata side-file path always admits parent creation. -/
theorem create_dir_metadata (xs : List String) :
    create_dir_path (xs ++ [(MODEL_METADATA_FILE)]) = Except.ok () := by
  cases xs with
  | nil => rfl
  | cons a t => simp [create_dir_path, parentPath, rootDir, MODEL_METADATA_FILE]

/-- A successful metadata phase: valid identity and a parsed document give
one POST request, the side-file write, and the document. -/
theorem get_metadata_ok (dl : ModelDownloader) (server : Server)
    (md : DownloadMetadata)
    (hargs : check_args dl.name dl.version dl.uid = Except.ok ())
    (hmeta : server.metadata = RunResult.ok md) :
    get_metadata dl server [] =
      ([Request.postMetadata], metaSideFS dl md, RunResult.ok md) := by
  simp [get_metadata, hargs, hmeta, metaSideFS, create_dir_metadata]

/-- The download loop succeeds on a list of files that all step
successfully, issuing their requests in order and appending their writes in
order. -/
theorem downloadLoop_ok {server : Server} {write_dir : String}
    {rpath : List String} {destF : String → List String}
    {bodyF : String → String} :
    ∀ (files : List String) (fs : FS),
      (∀ f ∈ files, fileStepOk server write_dir rpath destF bodyF f) →
      downloadLoop server write_dir rpath files fs =
        (files.map Request.fileReq,
         fs ++ files.map (fun f => (destF f, FileData.content (bodyF f))),
         RunResult.ok ()) := by
  intro files
  induction files with
  | nil => intro fs _; simp [downloadLoop]
  | cons f rest ih =>
    intro fs h
    obtain ⟨hd, hdir, hname, st, hf, hst⟩ := h f (by simp)
    obtain ⟨n, hn⟩ := Option.isSome_iff_exists.mp hname
    simp only [downloadLoop, hd, hdir, download_file, hn, hf, hst, if_true]
    rw [ih _ (fun x hx => h x (by simp [hx]))]
    simp

/-- The download loop aborts at the first file whose fetch returns a
non-2xx status: earlier writes stay, the failing request is the last one
issued, and the error carries the response body. -/
theorem downloadLoop_http_abort {server : Server} {write_dir : String}
    {rpath : List String} {destF : String → List String}
    {bodyF : String → String} {bad : String} {destB : List String}
    {stB : Nat} {badBody : String} {rest : List String}
    (hbd : localDest write_dir rpath bad = Except.ok destB)
    (hdir : create_dir_path destB = Except.ok ())
    (hnameB : (fileName destB).isSome = true)
    (hfetch : server.fetch bad = FetchOutcome.resp stB badBody)
    (hst : http2xx stB = false) :
    ∀ (pre : List String) (fs : FS),
      (∀ f ∈ pre, fileStepOk server write_dir rpath destF bodyF f) →
      downloadLoop server write_dir rpath (pre ++ bad :: rest) fs =
        (pre.map Request.fileReq ++ [Request.fileReq bad],
         fs ++ pre.map (fun f => (destF f, FileData.content (bodyF f))),
         RunResult.err ("Failed to download model: " ++ badBody)) := by
  intro pre
  induction pre with
  | nil =>
    intro fs _
    obtain ⟨n, hn⟩ := Option.isSome_iff_exists.mp hnameB
    simp only [List.nil_append, downloadLoop, hbd, hdir, download_file, hn, hfetch, hst]
    simp
  | cons f p ih =>
    intro fs h
    obtain ⟨hd, hdirf, hname, st, hf, hstf⟩ := h f (by simp)
    obtain ⟨n, hn⟩ := Option.isSome_iff_exists.mp hname
    simp only [List.cons_append, downloadLoop, hd, hdirf, download_file, hn, hf, hstf, if_true,
      List.append_eq]
    rw [ih _ (fun x hx => h x (by simp [hx]))]
    simp

/-- The download loop aborts at the first file whose destination mapping
fails, before issuing a request for it: earlier writes stay and the mapping
error is returned. -/
theorem downloadLoop_dest_abort {server : Server} {write_dir : String}
    {rpath : List String} {destF : String → List String}
    {bodyF : String → String} {bad : String} {em : String}
    {rest : List String}
    (hbd : localDest write_dir rpath bad = Except.error em) :
    ∀ (pre : List String) (fs : FS),
      (∀ f ∈ pre, fileStepOk server write_dir rpath destF bodyF f) →
      downloadLoop server write_dir rpath (pre ++ bad :: rest) fs =
        (pre.map Request.fileReq,
         fs ++ pre.map (fun f => (destF f, FileData.content (bodyF f))),
         RunResult.err em) := by
  intro pre
  induction pre with
  | nil =>
    intro fs _
    simp only [List.nil_append, downloadLoop, hbd]
    simp
  | cons f p ih =>
    intro fs h
    obtain ⟨hd, hdirf, hname, st, hf, hstf⟩ := h f (by simp)
    obtain ⟨n, hn⟩ := Option.isSome_iff_exists.mp hname
    simp only [List.cons_append, downloadLoop, hd, hdirf, download_file, hn, hf, hstf, if_true,
      List.append_eq]
    rw [ih _ (fun x hx => h x (by simp [hx]))]
    simp

/-- The download loop issues no listing request. -/
theorem downloadLoop_no_list {server : Server} {write_dir : String}
    {rpath : List String} :
    ∀ (files : List String) (fs : FS),
      ((downloadLoop server write_dir rpath files fs).1.filter isListReq) = [] := by
  intro files
  induction files with
  | nil => intro fs; simp [downloadLoop]
  | cons f rest ih =>
    intro fs
    simp only [downloadLoop]
    cases hld : localDest write_dir rpath f with
    | error e => simp [hld]
    | ok lpath =>
      cases hcd : create_dir_path lpath with
      | error e => simp [hld, hcd]
      | ok u =>
        simp only [download_file]
        cases hn : fileName lpath with
        | none => simp [hld, hcd, hn]
        | some n =>
          cases hf : server.fetch f with
          | netFail e => simp [hld, hcd, hn, hf, isListReq]
          | resp st b =>
            cases hst : http2xx st with
            | false => simp [hld, hcd, hn, hf, hst, isListReq]
            | true =>
              simp only [hld, hcd, hn, hf, hst, if_true]
              simp [isListReq, ih]

/-- Every `download_files` call issues exactly one listing request. -/
theorem download_files_one_list (server : Server) (write_dir : String)
    (rpath : List String) (fs : FS) :
    treeDownloads (download_files server write_dir rpath fs).1 = 1 := by
  cases h : server.listEndpoint rpath with
  | netFail e => simp [download_files, h, treeDownloads, isListReq]
  | parseFail e => simp [download_files, h, treeDownloads, isListReq]
  | files fl =>
    simp [download_files, h, treeDownloads, isListReq, downloadLoop_no_list]

/-- The stream loop returns all chunk bytes when every item is a chunk
valid on its own. -/
theorem loadStreamLoop_all_valid :
    ∀ (items : List ChunkResult) (buffer : List Nat),
      (∀ it ∈ items, ∃ b, it = ChunkResult.chunk b ∧ isValidUtf8 b = true) →
      loadStreamLoop buffer items = RunResult.ok (buffer ++ streamBytes items) := by
  intro items
  induction items with
  | nil => intro buffer _; simp [loadStreamLoop, streamBytes]
  | cons it rest ih =>
    intro buffer h
    obtain ⟨b, rfl, hv⟩ := h it (by simp)
    simp only [loadStreamLoop, hv, if_true, streamBytes]
    rw [ih _ (fun x hx => h x (by simp [hx]))]
    simp

/-- The stream loop returns an error only when some stream item is a read
failure. -/
theorem loadStreamLoop_isErr :
    ∀ (items : List ChunkResult) (buffer : List Nat),
      (loadStreamLoop buffer items).isErr = true →
      ∃ e, ChunkResult.chunkErr e ∈ items := by
  intro items
  induction items with
  | nil => intro buffer h; simp [loadStreamLoop, RunResult.isErr] at h
  | cons it rest ih =>
    intro buffer h
    cases it with
    | chunkErr e => exact ⟨e, by simp⟩
    | chunk bs =>
      cases hv : isValidUtf8 bs with
      | false => simp [loadStreamLoop, hv, RunResult.isErr] at h
      | true =>
        simp only [loadStreamLoop, hv, if_true] at h
        obtain ⟨e, he⟩ := ih _ h
        exact ⟨e, by simp [he]⟩

/-- The stream loop panics at the first chunk that is not valid UTF-8 on
its own, whatever comes after it. -/
theorem loadStreamLoop_invalid_panics :
    ∀ (pre : List ChunkResult) (buffer : List Nat) (bs : List Nat)
      (rest : List ChunkResult),
      (∀ it ∈ pre, ∃ b, it = ChunkResult.chunk b ∧ isValidUtf8 b = true) →
      isValidUtf8 bs = false →
      loadStreamLoop buffer (pre ++ ChunkResult.chunk bs :: rest) =
        RunResult.panic ("invalid utf-8 sequence") := by
  intro pre
  induction pre with
  | nil => intro buffer bs rest _ hbs; simp [loadStreamLoop, hbs]
  | cons it p ih =>
    intro buffer bs rest h hbs
    obtain ⟨b, rfl, hv⟩ := h it (by simp)
    simp only [List.cons_append, loadStreamLoop, hv, if_true]
    exact ih _ _ _ (fun x hx => h x (by simp [hx])) hbs

/-! ## Claim theorems -/

/-- C1: the claim says `check_args` rejects every identity other than
`{uid}` alone or `{name, version}` together, in particular an identity with
a name but no version. The code accepts that identity: with only the name
present, `name and version both absent` is false while `uid absent` is
true, the two flags differ, and `check_args` returns `Ok`. This evaluates
the embedded code at the failing input. -/
theorem check_args_accepts_name_without_version :
    check_args (some "m") none none = Except.ok () := rfl

/-- C2 counterexample: with the exported and quantized choices both enabled
and `quantized_model_uri` absent, `get_model_uri` does not return an error:
it panics (the `expect` call) with the `NO_ONNX_URI` message, refuting the
parenthetical of the claim at this concrete metadata value. -/
theorem get_model_uri_quantized_missing_panics :
    get_model_uri true true
        (DownloadMetadata.mk "artifacts/model" (some "artifacts/onnx") none none none none)
      = RunResult.panic NO_ONNX_URI ∧
    (get_model_uri true true
        (DownloadMetadata.mk "artifacts/model" (some "artifacts/onnx") none none none none)).isErr
      = false :=
  ⟨rfl, rfl⟩

/-- C2 (amended): for every metadata value, `get_model_uri` with the
exported choice and the quantized choice both enabled returns
`quantized_model_uri` when present, and terminates abnormally (panics with
the `NO_ONNX_URI` message) when it is absent, rather than returning an
error. -/
theorem get_model_uri_quantized_selection (md : DownloadMetadata) :
    get_model_uri true true md =
      (match md.quantized_model_uri with
       | some u => RunResult.ok u
       | none => RunResult.panic NO_ONNX_URI) := by
  cases h : md.quantized_model_uri <;> simp [get_model_uri, h]

/-- C3: for every metadata value, `get_preprocessor_uri` returns the first
present field among `preprocessor_uri`, `tokenizer_uri`,
`feature_extractor_uri` in that fixed priority order, and `none` when all
three are absent; in particular, when both `preprocessor_uri` and
`tokenizer_uri` are populated, `preprocessor_uri` is returned. -/
theorem get_preprocessor_uri_priority (md : DownloadMetadata) :
    get_preprocessor_uri md =
      (match md.preprocessor_uri, md.tokenizer_uri, md.feature_extractor_uri with
       | some p, _, _ => some p
       | none, some t, _ => some t
       | none, none, some f => some f
       | none, none, none => none) := by
  cases hp : md.preprocessor_uri <;> cases ht : md.tokenizer_uri <;>
    cases hf : md.feature_extractor_uri <;>
    simp [get_preprocessor_uri, hp, ht, hf]

/-- C9: two retrieval runs that differ only in the `onnx` flag field of the
`ModelDownloader` are indistinguishable: same requests, same local files,
same outcome, for every server behaviour. The exported-model decision in
`download_model` is computed solely as the negation of `no_onnx`, and the
`onnx` field is never read. -/
theorem download_model_onnx_noninterference (dl : ModelDownloader)
    (server : Server) (b1 b2 : Bool) :
    download_model { dl with onnx := b1 } server =
      download_model { dl with onnx := b2 } server := by
  cases dl
  rfl

/-- C7: for every `ModelMetadata` value, the document written by
`save_metadata_to_json` (the serde serialization `encodeModelMetadata`)
parses back (`decodeModelMetadata`) to a value equal to the original:
the persisted `metadata.json` document round-trips. -/
theorem metadata_json_roundtrip (m : ModelMetadata) :
    decodeModelMetadata (encodeModelMetadata m) = some m := by
  obtain ⟨name, mtype, onnxU, onnxV, mu, mv, mt, sd, ⟨⟨dt, inf, outf⟩, ids⟩⟩ := m
  cases onnxU <;> cases onnxV <;> cases ids <;> rfl

/-- C5: during a tree download over a multi-file listing, the first non-2xx
file fetch aborts the whole `download_files` call with an error carrying
the response body (the server error text); the requests issued are exactly
the listing request, the earlier files and the failing file, so files
listed after the failing one are never attempted; the files already written
remain in the filesystem (no rollback). -/
theorem download_files_abort_on_http_error
    (server : Server) (write_dir : String) (rpath : List String) (fs0 : FS)
    (pre : List String) (bad : String) (post : List String)
    (destF : String → List String) (bodyF : String → String)
    (destB : List String) (stB : Nat) (badBody : String)
    (hlist : server.listEndpoint rpath = ListOutcome.files (pre ++ bad :: post))
    (hpre : ∀ f ∈ pre, fileStepOk server write_dir rpath destF bodyF f)
    (hbadDest : localDest write_dir rpath bad = Except.ok destB)
    (hbadDir : create_dir_path destB = Except.ok ())
    (hbadName : (fileName destB).isSome = true)
    (hbadFetch : server.fetch bad = FetchOutcome.resp stB badBody)
    (hbadStatus : http2xx stB = false) :
    download_files server write_dir rpath fs0 =
      (Request.listReq rpath :: (pre.map Request.fileReq ++ [Request.fileReq bad]),
       fs0 ++ pre.map (fun f => (destF f, FileData.content (bodyF f))),
       RunResult.err ("Failed to download model: " ++ badBody)) := by
  simp only [download_files, hlist]
  rw [downloadLoop_http_abort hbadDest hbadDir hbadName hbadFetch hbadStatus pre fs0 hpre]

/-- C5 witness: on the concrete three-file tree of `demoServer`, the second
file fails with a 500 whose body is the error text; the call aborts with
that text, the first file's write remains, and the third file is never
requested. -/
theorem download_files_abort_on_http_error_witness :
    download_files demoServer "dest" ["tree"] [] =
      ([Request.listReq ["tree"], Request.fileReq "tree/a.bin", Request.fileReq "tree/sub/b.bin"],
       [(["dest", "a.bin"], FileData.content "a-bytes")],
       RunResult.err ("Failed to download model: " ++ "disk on fire")) := by
  have h := download_files_abort_on_http_error demoServer "dest" ["tree"] []
    ["tree/a.bin"] "tree/sub/b.bin" ["tree/c.bin"]
    (fun f => if f = "tree/a.bin" then ["dest", "a.bin"] else [])
    (fun f => if f = "tree/a.bin" then "a-bytes" else "")
    ["dest", "sub", "b.bin"] 500 "disk on fire"
    rfl
    (by
      intro f hf
      simp only [List.mem_singleton] at hf
      subst hf
      exact ⟨rfl, rfl, rfl, 201, rfl, rfl⟩)
    rfl rfl rfl rfl rfl
  exact h

/-- C4: the local destination computed by the tree download for every file
in the listing. (A) When the remote root has no file-name extension, each
file's destination is the destination directory joined with the file path
minus the root prefix, and a fully successful run writes exactly those
destinations. (B) Still without an extension, a file path that does not
have the root as a prefix fails the run with the path-mapping error (and no
request is issued for it). (C) When the root does have an extension, each
destination is the destination directory joined with only the file's base
name, the remote directory structure discarded. -/
theorem download_files_destination_mapping
    (server : Server) (write_dir : String) (rpath : List String)
    (fl : List String) (fs0 : FS)
    (hlist : server.listEndpoint rpath = ListOutcome.files fl) :
    ((pathExtension rpath = none) →
      ∀ (relF : String → List String) (bodyF : String → String),
        (∀ f ∈ fl,
          stripRoot rpath (pathComponents f) = some (relF f) ∧
          create_dir_path (joinPath (pathComponents write_dir) (relF f)) = Except.ok () ∧
          (fileName (joinPath (pathComponents write_dir) (relF f))).isSome = true ∧
          ∃ st, server.fetch f = FetchOutcome.resp st (bodyF f) ∧ http2xx st = true) →
        download_files server write_dir rpath fs0 =
          (Request.listReq rpath :: fl.map Request.fileReq,
           fs0 ++ fl.map (fun f =>
             (joinPath (pathComponents write_dir) (relF f), FileData.content (bodyF f))),
           RunResult.ok ())) ∧
    ((pathExtension rpath = none) →
      ∀ (pre : List String) (bad : String) (post : List String)
        (relF : String → List String) (bodyF : String → String),
        fl = pre ++ bad :: post →
        (∀ f ∈ pre,
          stripRoot rpath (pathComponents f) = some (relF f) ∧
          create_dir_path (joinPath (pathComponents write_dir) (relF f)) = Except.ok () ∧
          (fileName (joinPath (pathComponents write_dir) (relF f))).isSome = true ∧
          ∃ st, server.fetch f = FetchOutcome.resp st (bodyF f) ∧ http2xx st = true) →
        stripRoot rpath (pathComponents bad) = none →
        download_files server write_dir rpath fs0 =
          (Request.listReq rpath :: pre.map Request.fileReq,
           fs0 ++ pre.map (fun f =>
             (joinPath (pathComponents write_dir) (relF f), FileData.content (bodyF f))),
           RunResult.err filePathError)) ∧
    (∀ e, pathExtension rpath = some e →
      ∀ (nameF : String → String) (bodyF : String → String),
        (∀ f ∈ fl,
          fileName (pathComponents f) = some (nameF f) ∧
          create_dir_path (joinPath (pathComponents write_dir) [nameF f]) = Except.ok () ∧
          (fileName (joinPath (pathComponents write_dir) [nameF f])).isSome = true ∧
          ∃ st, server.fetch f = FetchOutcome.resp st (bodyF f) ∧ http2xx st = true) →
        download_files server write_dir rpath fs0 =
          (Request.listReq rpath :: fl.map Request.fileReq,
           fs0 ++ fl.map (fun f =>
             (joinPath (pathComponents write_dir) [nameF f], FileData.content (bodyF f))),
           RunResult.ok ())) := by
  refine ⟨?_, ?_, ?_⟩
  · intro hext relF bodyF hall
    simp only [download_files, hlist]
    rw [downloadLoop_ok fl fs0 (fun f hf => ?_)]
    obtain ⟨h1, h2, h3, hst⟩ := hall f hf
    exact ⟨localDest_dir hext h1, h2, h3, hst⟩
  · intro hext pre bad post relF bodyF hfl hpre hbad
    subst hfl
    simp only [download_files, hlist]
    rw [downloadLoop_dest_abort (localDest_dir_err hext hbad) pre fs0 (fun f hf => ?_)]
    obtain ⟨h1, h2, h3, hst⟩ := hpre f hf
    exact ⟨localDest_dir hext h1, h2, h3, hst⟩
  · intro e hext nameF bodyF hall
    simp only [download_files, hlist]
    rw [downloadLoop_ok fl fs0 (fun f hf => ?_)]
    obtain ⟨h1, h2, h3, hst⟩ := hall f hf
    exact ⟨localDest_file hext h1, h2, h3, hst⟩

/-- C4 witness: the single-file root `artifacts/model.pkl` (which has an
extension) lists one file; its destination keeps only the base name under
the destination directory. -/
theorem download_files_destination_mapping_witness :
    download_files demoServer "dest" ["artifacts", "model.pkl"] [] =
      ([Request.listReq ["artifacts", "model.pkl"], Request.fileReq "artifacts/model.pkl"],
       [(["dest", "model.pkl"], FileData.content "model-bytes")],
       RunResult.ok ()) := by
  have h := (download_files_destination_mapping demoServer "dest"
      ["artifacts", "model.pkl"] ["artifacts/model.pkl"] [] rfl).2.2
    "pkl" rfl (fun _ => "model.pkl") (fun _ => "model-bytes")
    (by
      intro f hf
      simp only [List.mem_singleton] at hf
      subst hf
      exact ⟨rfl, rfl, rfl, 200, rfl, rfl⟩)
  exact h

/-- C6: orchestration order of `download_model` after a valid identity and
a resolved metadata document. When a companion root is present, its tree
download runs first: if it fails, the run aborts with that error and the
requests are exactly the metadata POST followed by the companion-phase
requests (the primary phase never begins); if it succeeds and the primary
variant resolves, the primary-phase requests follow the companion-phase
requests. When no companion root is present and the primary variant
resolves, the requests are the metadata POST followed by one tree download:
the whole run performs exactly one listing request. -/
theorem download_model_phase_order (dl : ModelDownloader) (server : Server)
    (md : DownloadMetadata)
    (hargs : check_args dl.name dl.version dl.uid = Except.ok ())
    (hmeta : server.metadata = RunResult.ok md) :
    (∀ (p : String) (compReqs : List Request) (compFS : FS)
       (compRes : RunResult Unit),
      get_preprocessor_uri md = some p →
      download_files server dl.write_dir (pathComponents p) (metaSideFS dl md) =
        (compReqs, compFS, compRes) →
      ((∀ e, compRes = RunResult.err e →
        download_model dl server =
          (Request.postMetadata :: compReqs, compFS, RunResult.err e)) ∧
       (∀ (u : String) (primReqs : List Request) (primFS : FS)
          (primRes : RunResult Unit),
         compRes = RunResult.ok () →
         get_model_uri dl.quantize (!dl.no_onnx) md = RunResult.ok u →
         download_files server dl.write_dir (pathComponents u) compFS =
           (primReqs, primFS, primRes) →
         download_model dl server =
           (Request.postMetadata :: compReqs ++ primReqs, primFS, primRes)))) ∧
    (∀ (u : String) (primReqs : List Request) (primFS : FS)
       (primRes : RunResult Unit),
      get_preprocessor_uri md = none →
      get_model_uri dl.quantize (!dl.no_onnx) md = RunResult.ok u →
      download_files server dl.write_dir (pathComponents u) (metaSideFS dl md) =
        (primReqs, primFS, primRes) →
      download_model dl server =
        (Request.postMetadata :: primReqs, primFS, primRes) ∧
      treeDownloads (download_model dl server).1 = 1) := by
  have hgm := get_metadata_ok dl server md hargs hmeta
  constructor
  · intro p compReqs compFS compRes hp hcomp
    constructor
    · intro e hres
      subst hres
      simp only [download_model, hgm, hp, hcomp]
      simp
    · intro u primReqs primFS primRes hres hu hprim
      subst hres
      simp only [download_model, hgm, hp, hcomp, hu, hprim]
      simp
  · intro u primReqs primFS primRes hp hu hprim
    have heq : download_model dl server =
        (Request.postMetadata :: primReqs, primFS, primRes) := by
      simp only [download_model, hgm, hp, hu, hprim]
      simp
    refine ⟨heq, ?_⟩
    have hone := download_files_one_list server dl.write_dir (pathComponents u)
      (metaSideFS dl md)
    rw [hprim] at hone
    rw [heq]
    simpa [treeDownloads, isListReq] using hone

/-- C6 witness: the concrete run with no companion root performs exactly
the metadata POST, one listing request and one file request, in that order,
and exactly one tree download. -/
theorem download_model_phase_order_witness :
    download_model demoDownloader demoServer =
      ([Request.postMetadata, Request.listReq ["artifacts", "model.pkl"],
        Request.fileReq "artifacts/model.pkl"],
       [(["dest", "metadata.json"], FileData.metaFile demoMetadata),
        (["dest", "model.pkl"], FileData.content "model-bytes")],
       RunResult.ok ()) ∧
    treeDownloads (download_model demoDownloader demoServer).1 = 1 := by
  have h := (download_model_phase_order demoDownloader demoServer demoMetadata
      rfl rfl).2
    "artifacts/model.pkl"
    [Request.listReq ["artifacts", "model.pkl"], Request.fileReq "artifacts/model.pkl"]
    [(["dest", "metadata.json"], FileData.metaFile demoMetadata),
     (["dest", "model.pkl"], FileData.content "model-bytes")]
    (RunResult.ok ()) rfl rfl rfl
  exact h

/-- C8: the transport operations return an error exactly on network failure
of the request itself (with a valid URL); a response is passed through as a
success whatever its status code, never converted to an error at this
layer. -/
theorem make_requests_transport_errors (out : FetchOutcome) :
    ((make_get_request true out).isErr = true ↔ ∃ e, out = FetchOutcome.netFail e) ∧
    ((make_post_request true out).isErr = true ↔ ∃ e, out = FetchOutcome.netFail e) ∧
    (∀ st b, make_get_request true (FetchOutcome.resp st b) =
      RunResult.ok (Response.mk st b)) ∧
    (∀ st b, make_post_request true (FetchOutcome.resp st b) =
      RunResult.ok (Response.mk st b)) ∧
    (∀ e, make_get_request true (FetchOutcome.netFail e) =
      RunResult.err ("Failed to make get request: " ++ e)) ∧
    (∀ e, make_post_request true (FetchOutcome.netFail e) =
      RunResult.err ("Failed to make post request: " ++ e)) := by
  refine ⟨?_, ?_, fun st b => rfl, fun st b => rfl, fun e => rfl, fun e => rfl⟩ <;>
    cases out <;> simp [make_get_request, make_post_request, RunResult.isErr]

/-- C8 witness: a 503 response comes back as a success carrying its status
for the caller to inspect, while a refused connection is a returned
error. -/
theorem make_requests_transport_errors_witness :
    make_get_request true (FetchOutcome.resp 503 "overloaded") =
      RunResult.ok (Response.mk 503 "overloaded") ∧
    (make_get_request true (FetchOutcome.netFail "connection refused")).isErr = true :=
  ⟨(make_requests_transport_errors (FetchOutcome.resp 503 "overloaded")).2.2.1
      503 "overloaded",
   (make_requests_transport_errors (FetchOutcome.netFail "connection refused")).1.mpr
      ⟨"connection refused", rfl⟩⟩

/-- C10: the metadata-response accumulation returns an error only when a
stream read fails; when every item is a chunk that is valid UTF-8 on its
own, it returns the concatenated bytes; and at the first chunk that is not
valid UTF-8 on its own (for example a multi-byte character split across a
chunk boundary) it terminates abnormally with a panic instead of returning
an error. -/
theorem load_stream_response_utf8 (items : List ChunkResult) :
    ((load_stream_response items).isErr = true →
      ∃ e, ChunkResult.chunkErr e ∈ items) ∧
    ((∀ it ∈ items, ∃ b, it = ChunkResult.chunk b ∧ isValidUtf8 b = true) →
      load_stream_response items = RunResult.ok (streamBytes items)) ∧
    (∀ (pre : List ChunkResult) (bs : List Nat) (rest : List ChunkResult),
      items = pre ++ ChunkResult.chunk bs :: rest →
      (∀ it ∈ pre, ∃ b, it = ChunkResult.chunk b ∧ isValidUtf8 b = true) →
      isValidUtf8 bs = false →
      load_stream_response items = RunResult.panic ("invalid utf-8 sequence")) := by
  refine ⟨fun h => loadStreamLoop_isErr items [] h, fun h => ?_,
    fun pre bs rest hit hpre hbs => ?_⟩
  · have h2 := loadStreamLoop_all_valid items [] h
    simpa [load_stream_response] using h2
  · subst hit
    exact loadStreamLoop_invalid_panics pre [] bs rest hpre hbs

/-- C10 witness: the euro sign `E2 82 AC` split after its first byte gives
a chunk `[0xE2]` that is not valid UTF-8 on its own; the accumulation over
`"hi"` followed by that split character panics. -/
theorem load_stream_response_utf8_witness :
    load_stream_response
        [ChunkResult.chunk [104, 105], ChunkResult.chunk [226],
         ChunkResult.chunk [130, 172]] =
      RunResult.panic ("invalid utf-8 sequence") :=
  (load_stream_response_utf8 _).2.2 [ChunkResult.chunk [104, 105]] [226]
    [ChunkResult.chunk [130, 172]] rfl
    (fun it hit => by
      simp only [List.mem_singleton] at hit
      exact ⟨[104, 105], by rw [hit], rfl⟩)
    rfl

end OpsmlCli
